import Mathlib

/-!
Verification development for the step-orchestration engine of the repository
(`src/utils/workflow-retry.ts`): `WorkflowBreakError`, `WorkflowAction`,
`WorkflowContext`, `WorkflowResult` and `WorkflowRetry`.

Modelling choices (shallow embedding):

* JS runtime values that flow through the engine (step results, break
  reasons, thrown values) are modelled by the inductive `Val`; `Val.verr m`
  is an `Error` object whose `message` is `m` (so `instanceof Error`
  becomes `Val.isError`), and error identity is modelled as structural
  equality of `Val`.
* A thrown JS value is either a `WorkflowBreakError` (the distinguished
  control-flow signal, `Thrown.breakSig`, whose message is
  "Workflow execution was interrupted") or any other value `Thrown.err v`.
* The mutable heap of one `execute()` call is the record `WfSt`: the
  `WorkflowRetry` fields `isBroken`/`breakReason`, the fields of the single
  `WorkflowContext` of that call, and the `currentAttempt` field of the
  currently executing `WorkflowAction` (only the currently executing
  action's counter is ever read, so one cell suffices).  `WfSt.trace` is a
  ghost log written only by caller-supplied step bodies and hooks in the
  theorems below; no engine definition touches it.
* `async` control flow becomes the state + exception monad
  `M α = WfSt → WfSt × Except Thrown α`; `try/catch` becomes `M.tryCatch`.
  Timing (`delayMs`, `setTimeout`/`setImmediate`) has no observable effect
  in this model; the field is kept but the waits are no-ops.
* The `for (let attempt = 1; attempt <= attempts; ...)` loops of
  `WorkflowAction.retry` and `WorkflowRetry.retry` are translated as
  fuel recursion: the fuel starts at `attempts` (the number of loop
  iterations) and the fuel-0 base case is the post-loop
  `throw new Error('Failed to execute ... after N attempts')`.
* `WorkflowResult`'s failure ledger (`failuresByAction`) is omitted: no
  code on the execution path ever writes to it, and no claim mentions it.
-/

deriving instance DecidableEq for Except

namespace WRetry

/-- A JS runtime value as seen by the engine: step results, break reasons
and thrown non-break values.  `verr m` is an `Error` with message `m`. -/
inductive Val where
  | undef : Val
  | vstr : String → Val
  | vnat : Nat → Val
  | verr : String → Val
deriving DecidableEq, Repr

/-- `v instanceof Error` for the modelled values. -/
def Val.isError : Val → Bool
  | .verr _ => true
  | _ => false

/-- A thrown JS value: either a `WorkflowBreakError` (always carrying the
message "Workflow execution was interrupted") or any other value. -/
inductive Thrown where
  | breakSig : Thrown
  | err : Val → Thrown
deriving DecidableEq, Repr

/-- The mutable heap of one `WorkflowRetry.execute()` call: the workflow's
break state, the fields of the single `WorkflowContext`, the currently
executing action's `currentAttempt` cell, and a ghost `trace` written only
by caller-supplied bodies/hooks (never by the engine). -/
structure WfSt where
  isBroken : Bool
  breakReason : Val
  resultsByName : List (String × Val)
  resultsByIndex : List Val
  currentAttempt : Nat
  currentActionName : String
  actionAttempt : Nat
  trace : List String
deriving DecidableEq, Repr

/-- The state of a freshly constructed `WorkflowRetry` + `WorkflowContext`. -/
def initSt : WfSt :=
  { isBroken := false, breakReason := .undef, resultsByName := [],
    resultsByIndex := [], currentAttempt := 0, currentActionName := "",
    actionAttempt := 0, trace := [] }

/-- The monad of the embedding: state passing plus JS exceptions. -/
def M (α : Type) : Type := WfSt → WfSt × Except Thrown α

def M.pure (a : α) : M α := fun s => (s, .ok a)

def M.bind (x : M α) (f : α → M β) : M β := fun s =>
  match x s with
  | (s', .ok a) => f a s'
  | (s', .error e) => (s', .error e)

def M.throw (e : Thrown) : M α := fun s => (s, .error e)

/-- `try x catch (e) h(e)`. -/
def M.tryCatch (x : M α) (h : Thrown → M α) : M α := fun s =>
  match x s with
  | (s', .ok a) => (s', .ok a)
  | (s', .error e) => h e s'

instance : Monad M where
  pure := M.pure
  bind := M.bind

theorem M.bind_eq (x : M α) (f : α → M β) : x >>= f = M.bind x f := rfl

theorem M.pure_eq (a : α) : (Pure.pure a : M α) = M.pure a := rfl

/-- `Map.set` on the insertion-ordered association list modelling a JS
`Map<string, any>`: update in place if the key exists, append otherwise. -/
def setName : List (String × Val) → String → Val → List (String × Val)
  | [], k, v => [(k, v)]
  | (k', v') :: rest, k, v =>
    if k' = k then (k, v) :: rest else (k', v') :: setName rest k v

/-- `Map.get` / `Map.has` on the association list. -/
def lookupName : List (String × Val) → String → Option Val
  | [], _ => none
  | (k', v') :: rest, k => if k' = k then some v' else lookupName rest k

/-- `WorkflowRetry.break(reason)`: record the break state, then throw a
fresh `WorkflowBreakError` (it never returns normally). -/
def wfBreak (reason : Val) : M α := fun s =>
  ({ s with isBroken := true, breakReason := reason }, .error .breakSig)

/-- `WorkflowRetry.getBreakReason()`. -/
def getBreakReason : M Val := fun s => (s, .ok s.breakReason)

/-- `WorkflowContext.setAttempt(n)`. -/
def ctxSetAttempt (n : Nat) : M Unit := fun s =>
  ({ s with currentAttempt := n }, .ok ())

/-- `WorkflowContext.getAttempt()`. -/
def ctxGetAttempt : M Nat := fun s => (s, .ok s.currentAttempt)

/-- `WorkflowContext.setActionName(name)`. -/
def ctxSetActionName (n : String) : M Unit := fun s =>
  ({ s with currentActionName := n }, .ok ())

/-- `WorkflowContext.addResult(name, result)`: `Map.set` by name plus an
append by index. -/
def ctxAddResult (n : String) (v : Val) : M Unit := fun s =>
  ({ s with resultsByName := setName s.resultsByName n v,
            resultsByIndex := s.resultsByIndex ++ [v] }, .ok ())

/-- `WorkflowContext.getResultByName(name)`: throws
`No result available with name "name"` when the name is unbound. -/
def ctxGetResultByName (n : String) : M Val := fun s =>
  match lookupName s.resultsByName n with
  | some v => (s, .ok v)
  | none =>
    (s, .error (.err (.verr ("No result available with name \"" ++ n ++ "\""))))

/-- Write of the currently executing action's `this.currentAttempt`. -/
def setActionAttempt (n : Nat) : M Unit := fun s =>
  ({ s with actionAttempt := n }, .ok ())

/-- Read of the currently executing action's `this.currentAttempt`. -/
def getActionAttempt : M Nat := fun s => (s, .ok s.actionAttempt)

/-- Ghost instrumentation used by caller-supplied bodies/hooks in the
theorems below; the engine never writes `trace`. -/
def traceLog (tag : String) : M Unit := fun s =>
  ({ s with trace := s.trace ++ [tag] }, .ok ())

/-- The `catch` block shared by every hook invocation site of
`WorkflowAction.execute`/`retry` and by the `onRetry`/`onSuccess` sites of
`WorkflowRetry`: a `WorkflowBreakError` re-breaks with the currently
recorded reason, any other thrown value becomes the new break reason. -/
def hookErrorToBreak : Thrown → M Unit
  | .breakSig => M.bind getBreakReason fun r => wfBreak r
  | .err v => wfBreak v

/-- `options.attempts || 1` for an optional JS number: `undefined` and the
falsy `0` default to `1`. -/
def orDefaultOne : Option Nat → Nat
  | none => 1
  | some 0 => 1
  | some (n + 1) => n + 1

/-- A `WorkflowAction` after construction: `ActionOptions` with the
constructor's normalisation applied and the context passing implicit in
`M`.  Hooks receive the action's `currentAttempt` and the error/result. -/
structure WorkflowAction where
  name : String
  attempts : Nat
  delayMs : Nat
  action : M Val
  onRetry : Option (Nat → Val → M Unit)
  onSuccess : Option (Nat → Val → M Unit)
  onFailed : Option (Nat → Val → M Unit)

/-- The `WorkflowAction` constructor: `attempts || 1`, `delayMs || 0`. -/
def mkAction (name : String) (attempts : Option Nat) (action : M Val)
    (onRetry : Option (Nat → Val → M Unit))
    (onSuccess : Option (Nat → Val → M Unit))
    (onFailed : Option (Nat → Val → M Unit)) : WorkflowAction :=
  { name := name, attempts := orDefaultOne attempts, delayMs := 0,
    action := action, onRetry := onRetry, onSuccess := onSuccess,
    onFailed := onFailed }

/-- The `if (attempt < this.attempts && this.onRetry) { try ... catch ... }`
block of `WorkflowAction.retry`. -/
def actionRetryHook (a : WorkflowAction) (attempt : Nat) (v : Val) : M Unit :=
  match a.onRetry with
  | some h =>
    if attempt < a.attempts then
      M.tryCatch (do let ca ← getActionAttempt; h ca v) hookErrorToBreak
    else M.pure ()
  | none => M.pure ()

/-- The body of `WorkflowAction.retry`'s `for` loop, by fuel: `attempt` is
the loop counter, the fuel counts the remaining iterations, and fuel 0 is
the post-loop `throw new Error('Failed to execute action ...')`. -/
def actionRetryGo (a : WorkflowAction) (fn : M Val) : Nat → Nat → M Val
  | _, 0 =>
    M.throw (.err (.verr ("Failed to execute action " ++ a.name ++
      " after " ++ toString a.attempts ++ " attempts")))
  | attempt, rem + 1 =>
    M.tryCatch (do setActionAttempt attempt; fn) fun error =>
      match error with
      | .breakSig => M.throw .breakSig
      | .err v =>
        actionRetryHook a attempt v >>= fun _ =>
          if attempt = a.attempts then M.throw (.err v)
          else actionRetryGo a fn (attempt + 1) rem

/-- `WorkflowAction.retry(fn, context)`. -/
def actionRetry (a : WorkflowAction) (fn : M Val) : M Val :=
  actionRetryGo a fn 1 a.attempts

/-- The lambda `WorkflowAction.execute` passes to `this.retry`: run the
body, then the `onSuccess` hook (its failure converted to a break), and
return the body's result. -/
def actionBodyFn (a : WorkflowAction) : M Val := do
  let result ← a.action
  match a.onSuccess with
  | some h =>
    M.tryCatch (do let ca ← getActionAttempt; h ca result) hookErrorToBreak
  | none => M.pure ()
  M.pure result

/-- The `catch` block of `WorkflowAction.execute`: re-raise a
`WorkflowBreakError`; otherwise run the `onFailed` hook (its failure
converted to a break) and re-raise the original error. -/
def actionExecuteCatch (a : WorkflowAction) : Thrown → M Val
  | .breakSig => M.throw .breakSig
  | .err v => do
    match a.onFailed with
    | some h =>
      M.tryCatch (do let ca ← getActionAttempt; h ca v) hookErrorToBreak
    | none => M.pure ()
    M.throw (.err v)

/-- `WorkflowAction.execute(context)`. -/
def actionExecute (a : WorkflowAction) : M Val :=
  M.tryCatch (actionRetry a (actionBodyFn a)) (actionExecuteCatch a)

/-- A `WorkflowResult`: results by name (`Map`) and by index (array).  The
failure ledger is omitted — nothing on the execution path writes it. -/
structure WorkflowResult where
  resultsByName : List (String × Val)
  resultsByIndex : List Val
deriving DecidableEq, Repr

/-- The empty `new WorkflowResult()`. -/
def WorkflowResult.empty : WorkflowResult := ⟨[], []⟩

/-- `WorkflowResult.addResult(name, result)`. -/
def WorkflowResult.addResult (r : WorkflowResult) (n : String) (v : Val) :
    WorkflowResult :=
  { resultsByName := setName r.resultsByName n v,
    resultsByIndex := r.resultsByIndex ++ [v] }

/-- `WorkflowResult.getResult(name)`: throws when the name is unbound. -/
def WorkflowResult.getResult (r : WorkflowResult) (n : String) :
    Except Thrown Val :=
  match lookupName r.resultsByName n with
  | some v => .ok v
  | none =>
    .error (.err (.verr ("No result available with name \"" ++ n ++ "\"")))

/-- `WorkflowResult.getAllResults()`. -/
def WorkflowResult.getAllResults (r : WorkflowResult) : List Val :=
  r.resultsByIndex

/-- A `WorkflowRetry` after construction (normalised options plus the
registered action list, in registration order). -/
structure Workflow where
  attempts : Nat
  delayMs : Nat
  onRetry : Option (Val → M Unit)
  onBreak : Option (Val → M Unit)
  onSuccess : Option (M Unit)
  onFailed : Option (Val → M Unit)
  actions : List WorkflowAction

/-- The `WorkflowRetry` constructor plus the `addAction` registrations. -/
def mkWorkflow (attempts : Option Nat) (actions : List WorkflowAction)
    (onRetry : Option (Val → M Unit))
    (onBreak : Option (Val → M Unit))
    (onSuccess : Option (M Unit))
    (onFailed : Option (Val → M Unit)) : Workflow :=
  { attempts := orDefaultOne attempts, delayMs := 0, onRetry := onRetry,
    onBreak := onBreak, onSuccess := onSuccess, onFailed := onFailed,
    actions := actions }

/-- The `for (const action of this.actions)` loop of
`WorkflowRetry.execute`: set the context's action name, execute the action,
store its result in the iteration's `WorkflowResult` and in the context. -/
def runActionsGo : List WorkflowAction → WorkflowResult → M WorkflowResult
  | [], acc => M.pure acc
  | act :: rest, acc => do
    ctxSetActionName act.name
    let r ← actionExecute act
    let acc' := acc.addResult act.name r
    ctxAddResult act.name r
    runActionsGo rest acc'

/-- One iteration of the sequence: a fresh empty `WorkflowResult`, all
actions in registration order, then the sequence-level `onSuccess` hook
(its failure converted to a break). -/
def wfSequenceFn (w : Workflow) : M WorkflowResult := do
  let res ← runActionsGo w.actions WorkflowResult.empty
  match w.onSuccess with
  | some h => M.tryCatch h hookErrorToBreak
  | none => M.pure ()
  M.pure res

/-- The `if (attempt < this.attempts && this.onRetry) { try ... catch ... }`
block of `WorkflowRetry.retry`. -/
def wfRetryHook (w : Workflow) (attempt : Nat) (v : Val) : M Unit :=
  match w.onRetry with
  | some h =>
    if attempt < w.attempts then M.tryCatch (h v) hookErrorToBreak
    else M.pure ()
  | none => M.pure ()

/-- The body of `WorkflowRetry.retry`'s `for` loop, by fuel, exactly as
`actionRetryGo` (with the sequence-level hook signature). -/
def wfRetryGo (w : Workflow) (fn : M WorkflowResult) :
    Nat → Nat → M WorkflowResult
  | _, 0 =>
    M.throw (.err (.verr ("Failed to execute workflow after " ++
      toString w.attempts ++ " attempts")))
  | attempt, rem + 1 =>
    M.tryCatch (do ctxSetAttempt attempt; fn) fun error =>
      match error with
      | .breakSig => M.throw .breakSig
      | .err v =>
        wfRetryHook w attempt v >>= fun _ =>
          if attempt = w.attempts then M.throw (.err v)
          else wfRetryGo w fn (attempt + 1) rem

/-- `WorkflowRetry.retry(fn, context)`. -/
def wfRetry (w : Workflow) (fn : M WorkflowResult) : M WorkflowResult :=
  wfRetryGo w fn 1 w.attempts

/-- The `catch` block of `WorkflowRetry.execute`: run `onBreak` on a break
(its own failure re-raising the recorded reason when it is an `Error`),
surface an `Error` break reason as itself, run `onFailed` on a non-break
error, and finally re-raise. -/
def wfExecuteCatch (w : Workflow) (error : Thrown) : M WorkflowResult := do
  match error, w.onBreak with
  | .breakSig, some h =>
    M.tryCatch (do let br ← getBreakReason; h br) fun e2 => do
      let br ← getBreakReason
      match e2 with
      | .breakSig =>
        if br.isError then M.throw (.err br) else M.throw e2
      | .err v => M.throw (.err v)
  | _, _ => M.pure ()
  let br ← getBreakReason
  match error with
  | .breakSig => if br.isError then M.throw (.err br) else M.pure ()
  | .err _ => M.pure ()
  match error, w.onFailed with
  | .err v, some h =>
    M.tryCatch (h v) fun e2 => do
      let br2 ← getBreakReason
      match e2 with
      | .breakSig =>
        if br2.isError then M.throw (.err br2) else M.throw e2
      | .err v2 => M.throw (.err v2)
  | _, _ => M.pure ()
  M.throw error

/-- `WorkflowRetry.execute()`: build the one fresh `WorkflowContext` of the
call, reset `isBroken` (and only it), and run the sequence under the
sequence-level retry loop with the catch block above. -/
def wfExecute (w : Workflow) : M WorkflowResult := fun s =>
  let s1 : WfSt :=
    { s with isBroken := false, resultsByName := [], resultsByIndex := [],
             currentAttempt := 0, currentActionName := "" }
  M.tryCatch (wfRetry w (wfSequenceFn w)) (wfExecuteCatch w) s1

/-! ### Generic helper lemmas about the monad and the name map -/

theorem M.tryCatch_ok {x : M α} {h : Thrown → M α} {s s' : WfSt} {a : α}
    (hx : x s = (s', .ok a)) : M.tryCatch x h s = (s', .ok a) := by
  simp [M.tryCatch, hx]

theorem M.tryCatch_error {x : M α} {h : Thrown → M α} {s s' : WfSt}
    {e : Thrown} (hx : x s = (s', .error e)) :
    M.tryCatch x h s = h e s' := by
  simp [M.tryCatch, hx]

theorem M.bind_ok {x : M α} {f : α → M β} {s s' : WfSt} {a : α}
    (hx : x s = (s', .ok a)) : (x >>= f) s = f a s' := by
  simp [M.bind_eq, M.bind, hx]

theorem M.bind_error {x : M α} {f : α → M β} {s s' : WfSt} {e : Thrown}
    (hx : x s = (s', .error e)) : (x >>= f) s = (s', .error e) := by
  simp [M.bind_eq, M.bind, hx]

theorem lookupName_setName (m : List (String × Val)) (n k : String) (v : Val) :
    lookupName (setName m n v) k =
      if n = k then some v else lookupName m k := by
  induction m with
  | nil => simp [setName, lookupName]
  | cons p rest ih =>
    obtain ⟨k', v'⟩ := p
    by_cases h1 : k' = n
    · subst h1
      by_cases h2 : k' = k <;> simp [setName, lookupName, h2]
    · by_cases h2 : k' = k
      · subst h2
        have : ¬ n = k' := fun h => h1 h.symm
        simp [setName, lookupName, h1, this]
      · simp [setName, lookupName, h1, h2, ih]

/-- The value the *last* write for a name leaves in a `Map` built by
an in-order sequence of `Map.set` calls. -/
def lastLookup : List (String × Val) → String → Option Val
  | [], _ => none
  | p :: rest, k =>
    match lastLookup rest k with
    | some w => some w
    | none => if p.1 = k then some p.2 else none

theorem lookupName_foldl_set (ps : List (String × Val))
    (m0 : List (String × Val)) (k : String) :
    lookupName (List.foldl (fun m p => setName m p.1 p.2) m0 ps) k =
      match lastLookup ps k with
      | some w => some w
      | none => lookupName m0 k := by
  induction ps generalizing m0 with
  | nil => simp [lastLookup]
  | cons p rest ih =>
    simp only [List.foldl_cons, ih, lastLookup]
    cases hrest : lastLookup rest k with
    | some w => simp
    | none =>
      simp only [lookupName_setName]
      by_cases hp : p.1 = k <;> simp [hp]

/-! ### Plain successful steps

`okAction (n, v)` is a hookless step named `n` whose body logs `"ok:" ++ n`
to the ghost trace and returns `v` on the first call. -/

def okAction (p : String × Val) : WorkflowAction :=
  mkAction p.1 none (do traceLog ("ok:" ++ p.1); M.pure p.2) none none none

/-- State change of one `okAction` iteration of the sequence loop. -/
def okStep1 (p : String × Val) (s : WfSt) : WfSt :=
  { s with currentActionName := p.1, actionAttempt := 1,
           trace := s.trace ++ ["ok:" ++ p.1],
           resultsByName := setName s.resultsByName p.1 p.2,
           resultsByIndex := s.resultsByIndex ++ [p.2] }

def okSt : List (String × Val) → WfSt → WfSt
  | [], s => s
  | p :: ps, s => okSt ps (okStep1 p s)

def okAcc : List (String × Val) → WorkflowResult → WorkflowResult
  | [], acc => acc
  | p :: ps, acc => okAcc ps (acc.addResult p.1 p.2)

theorem runActionsGo_okActs (ps : List (String × Val))
    (rest : List WorkflowAction) (acc : WorkflowResult) (s : WfSt) :
    runActionsGo (ps.map okAction ++ rest) acc s =
      runActionsGo rest (okAcc ps acc) (okSt ps s) := by
  induction ps generalizing acc s with
  | nil => rfl
  | cons p tail ih =>
    show runActionsGo (okAction p :: (tail.map okAction ++ rest)) acc s = _
    have h1 : runActionsGo (okAction p :: (tail.map okAction ++ rest)) acc s =
        runActionsGo (tail.map okAction ++ rest) (acc.addResult p.1 p.2)
          (okStep1 p s) := rfl
    rw [h1, ih]
    rfl

theorem okSt_isBroken (ps : List (String × Val)) (s : WfSt) :
    (okSt ps s).isBroken = s.isBroken := by
  induction ps generalizing s with
  | nil => rfl
  | cons p tail ih => simp [okSt, ih, okStep1]

theorem okSt_breakReason (ps : List (String × Val)) (s : WfSt) :
    (okSt ps s).breakReason = s.breakReason := by
  induction ps generalizing s with
  | nil => rfl
  | cons p tail ih => simp [okSt, ih, okStep1]

theorem okSt_currentAttempt (ps : List (String × Val)) (s : WfSt) :
    (okSt ps s).currentAttempt = s.currentAttempt := by
  induction ps generalizing s with
  | nil => rfl
  | cons p tail ih => simp [okSt, ih, okStep1]

theorem okSt_trace (ps : List (String × Val)) (s : WfSt) :
    (okSt ps s).trace = s.trace ++ ps.map (fun p => "ok:" ++ p.1) := by
  induction ps generalizing s with
  | nil => simp [okSt]
  | cons p tail ih => simp [okSt, ih, okStep1]

theorem okSt_resultsByIndex (ps : List (String × Val)) (s : WfSt) :
    (okSt ps s).resultsByIndex = s.resultsByIndex ++ ps.map Prod.snd := by
  induction ps generalizing s with
  | nil => simp [okSt]
  | cons p tail ih => simp [okSt, ih, okStep1]

theorem okSt_resultsByName (ps : List (String × Val)) (s : WfSt) :
    (okSt ps s).resultsByName =
      List.foldl (fun m p => setName m p.1 p.2) s.resultsByName ps := by
  induction ps generalizing s with
  | nil => rfl
  | cons p tail ih => simp [okSt, ih, okStep1]

theorem okAcc_resultsByIndex (ps : List (String × Val)) (acc : WorkflowResult) :
    (okAcc ps acc).resultsByIndex = acc.resultsByIndex ++ ps.map Prod.snd := by
  induction ps generalizing acc with
  | nil => simp [okAcc]
  | cons p tail ih => simp [okAcc, ih, WorkflowResult.addResult]

theorem okAcc_resultsByName (ps : List (String × Val)) (acc : WorkflowResult) :
    (okAcc ps acc).resultsByName =
      List.foldl (fun m p => setName m p.1 p.2) acc.resultsByName ps := by
  induction ps generalizing acc with
  | nil => rfl
  | cons p tail ih => simp [okAcc, ih, WorkflowResult.addResult]

/-- The constructors force a positive attempt budget (`attempts || 1`). -/
theorem orDefaultOne_pos (o : Option Nat) : ∃ m, orDefaultOne o = m + 1 := by
  match o with
  | none => exact ⟨0, rfl⟩
  | some 0 => exact ⟨0, rfl⟩
  | some (n + 1) => exact ⟨n, rfl⟩

/-- First-iteration success of the sequence-level retry loop. -/
theorem wfRetryGo_first_ok {w : Workflow} {fn : M WorkflowResult}
    {attempt rem : Nat} {s s' : WfSt} {r : WorkflowResult}
    (h : fn { s with currentAttempt := attempt } = (s', .ok r)) :
    wfRetryGo w fn attempt (rem + 1) s = (s', .ok r) := by
  have hx : (do ctxSetAttempt attempt; fn) s = (s', .ok r) := by
    have h0 : ctxSetAttempt attempt s =
        ({ s with currentAttempt := attempt }, .ok ()) := rfl
    rw [M.bind_ok h0]; exact h
  show M.tryCatch _ _ s = _
  exact M.tryCatch_ok hx

/-- A `WorkflowBreakError` reaching the sequence-level retry loop is
re-raised at once: no sequence attempt is consumed on it. -/
theorem wfRetryGo_first_breakSig {w : Workflow} {fn : M WorkflowResult}
    {attempt rem : Nat} {s s' : WfSt}
    (h : fn { s with currentAttempt := attempt } = (s', .error .breakSig)) :
    wfRetryGo w fn attempt (rem + 1) s = (s', .error .breakSig) := by
  have hx : (do ctxSetAttempt attempt; fn) s = (s', .error .breakSig) := by
    have h0 : ctxSetAttempt attempt s =
        ({ s with currentAttempt := attempt }, .ok ()) := rfl
    rw [M.bind_ok h0]; exact h
  show M.tryCatch _ _ s = _
  rw [M.tryCatch_error hx]
  rfl

/-- First-iteration success of the step-level retry loop. -/
theorem actionRetryGo_first_ok {a : WorkflowAction} {fn : M Val}
    {attempt rem : Nat} {s s' : WfSt} {v : Val}
    (h : fn { s with actionAttempt := attempt } = (s', .ok v)) :
    actionRetryGo a fn attempt (rem + 1) s = (s', .ok v) := by
  have hx : (do setActionAttempt attempt; fn) s = (s', .ok v) := by
    have h0 : setActionAttempt attempt s =
        ({ s with actionAttempt := attempt }, .ok ()) := rfl
    rw [M.bind_ok h0]; exact h
  show M.tryCatch _ _ s = _
  exact M.tryCatch_ok hx

/-- A `WorkflowBreakError` reaching the step-level retry loop is re-raised
at once: no step attempt is consumed on it and no hook runs. -/
theorem actionRetryGo_first_breakSig {a : WorkflowAction} {fn : M Val}
    {attempt rem : Nat} {s s' : WfSt}
    (h : fn { s with actionAttempt := attempt } = (s', .error .breakSig)) :
    actionRetryGo a fn attempt (rem + 1) s = (s', .error .breakSig) := by
  have hx : (do setActionAttempt attempt; fn) s = (s', .error .breakSig) := by
    have h0 : setActionAttempt attempt s =
        ({ s with actionAttempt := attempt }, .ok ()) := rfl
    rw [M.bind_ok h0]; exact h
  show M.tryCatch _ _ s = _
  rw [M.tryCatch_error hx]
  rfl

/-- A `WorkflowBreakError` out of `retry` is re-raised by
`WorkflowAction.execute` without running `onFailed`. -/
theorem actionExecute_breakSig {a : WorkflowAction} {s s' : WfSt}
    (h : actionRetry a (actionBodyFn a) s = (s', .error .breakSig)) :
    actionExecute a s = (s', .error .breakSig) := by
  show M.tryCatch _ _ s = _
  rw [M.tryCatch_error h]
  rfl

theorem actionExecute_ok {a : WorkflowAction} {s s' : WfSt} {v : Val}
    (h : actionRetry a (actionBodyFn a) s = (s', .ok v)) :
    actionExecute a s = (s', .ok v) :=
  M.tryCatch_ok h

/-- The full run of a workflow whose steps are all plain successes. -/
theorem wfExecute_okActs (oa : Option Nat) (ps : List (String × Val)) :
    wfExecute (mkWorkflow oa (ps.map okAction) none none none none) initSt =
      (okSt ps { initSt with currentAttempt := 1 },
       .ok (okAcc ps WorkflowResult.empty)) := by
  obtain ⟨m, hm⟩ := orDefaultOne_pos oa
  have hrun : runActionsGo (ps.map okAction) WorkflowResult.empty
      { initSt with currentAttempt := 1 } =
      (okSt ps { initSt with currentAttempt := 1 },
       .ok (okAcc ps WorkflowResult.empty)) := by
    have h := runActionsGo_okActs ps [] WorkflowResult.empty
      { initSt with currentAttempt := 1 }
    rw [List.append_nil] at h
    exact h
  have hfn : wfSequenceFn (mkWorkflow oa (ps.map okAction) none none none none)
      { initSt with currentAttempt := 1 } =
      (okSt ps { initSt with currentAttempt := 1 },
       .ok (okAcc ps WorkflowResult.empty)) := by
    show (runActionsGo (ps.map okAction) WorkflowResult.empty >>= _) _ = _
    rw [M.bind_ok hrun]
    rfl
  show M.tryCatch (wfRetryGo _ _ 1 (orDefaultOne oa)) _ initSt = _
  rw [hm]
  exact M.tryCatch_ok (wfRetryGo_first_ok hfn)

/-- C7: for a sequence of steps that each succeed on the first call,
`execute()` resolves with a `WorkflowResult` whose by-index results list
the step results in registration order, and whose `getResult(name)`
returns, for every name, the result of the last step registered under that
name (unbound names throw); in particular two steps sharing one name keep
both results by index (length 2) while the name lookup exposes only the
later one. -/
theorem c7_results_in_registration_order :
    (∀ (oa : Option Nat) (ps : List (String × Val)),
      ∃ r : WorkflowResult,
        (wfExecute (mkWorkflow oa (ps.map okAction) none none none none)
          initSt).2 = .ok r ∧
        r.getAllResults = ps.map Prod.snd ∧
        ∀ k : String,
          r.getResult k =
            match lastLookup ps k with
            | some v => .ok v
            | none =>
              .error (.err (.verr
                ("No result available with name \"" ++ k ++ "\""))))
    ∧
    (∀ v1 v2 : Val,
      ∃ r : WorkflowResult,
        (wfExecute (mkWorkflow (some 1)
            ([("x", v1), ("x", v2)].map okAction) none none none none)
          initSt).2 = .ok r ∧
        r.getAllResults = [v1, v2] ∧
        r.getResult "x" = .ok v2) := by
  have main : ∀ (oa : Option Nat) (ps : List (String × Val)),
      ∃ r : WorkflowResult,
        (wfExecute (mkWorkflow oa (ps.map okAction) none none none none)
          initSt).2 = .ok r ∧
        r.getAllResults = ps.map Prod.snd ∧
        ∀ k : String,
          r.getResult k =
            match lastLookup ps k with
            | some v => .ok v
            | none =>
              .error (.err (.verr
                ("No result available with name \"" ++ k ++ "\""))) := by
    intro oa ps
    refine ⟨okAcc ps WorkflowResult.empty, ?_, ?_, ?_⟩
    · rw [wfExecute_okActs]
    · rw [WorkflowResult.getAllResults, okAcc_resultsByIndex]
      rfl
    · intro k
      rw [WorkflowResult.getResult, okAcc_resultsByName]
      have hempty : WorkflowResult.empty.resultsByName = [] := rfl
      rw [hempty, lookupName_foldl_set]
      cases lastLookup ps k <;> rfl
  refine ⟨main, fun v1 v2 => ?_⟩
  obtain ⟨r, h1, h2, h3⟩ := main (some 1) [("x", v1), ("x", v2)]
  refine ⟨r, h1, by simpa using h2, ?_⟩
  have := h3 "x"
  simpa [lastLookup] using this

/-! ### A step whose body calls `break(reason)` (claim C1) -/

/-- A step named `"brk"` whose body logs once to the ghost trace and then
calls the orchestrator's `break(reason)`.  Its (instrumented) `onRetry` and
`onFailed` hooks log if they ever run. -/
def brkAction (reason : Val) (oa : Option Nat) : WorkflowAction :=
  mkAction "brk" oa (do traceLog "brk"; wfBreak reason)
    (some fun _ _ => traceLog "stepRetry") none
    (some fun _ _ => traceLog "stepFailed")

/-- A workflow of plain successful steps `pre`, then a breaking step, then
plain steps `post`, with instrumented sequence-level `onRetry`/`onFailed`
hooks that log if they ever run. -/
def brkWorkflow (reason : Val) (oa ok1 : Option Nat)
    (pre post : List (String × Val)) : Workflow :=
  mkWorkflow oa
    (pre.map okAction ++ brkAction reason ok1 :: post.map okAction)
    (some fun _ => traceLog "seqRetry") none none
    (some fun _ => traceLog "seqFailed")

/-- C1: whatever the workflow around it (any prefix of succeeding steps,
any suffix, any step- and sequence-level attempt budgets as produced by the
constructors), a step body that calls `break(reason)` halts execution at
once: the ghost trace shows the prefix, one single invocation of the
breaking body, no suffix step, and no step- or sequence-level retry or
failure hook (so no retry consumes an attempt on the `WorkflowBreakError`);
`execute()` rejects with `reason` itself when it is an `Error` and with the
generic `WorkflowBreakError` ("Workflow execution was interrupted")
otherwise; and afterwards `wasBroken()` is `true` and `getBreakReason()`
is `reason`. -/
theorem c1_break_halts_immediately (reason : Val) (oa ok1 : Option Nat)
    (pre post : List (String × Val)) :
    (wfExecute (brkWorkflow reason oa ok1 pre post) initSt).2 =
      (if reason.isError then .error (.err reason)
       else .error .breakSig) ∧
    (wfExecute (brkWorkflow reason oa ok1 pre post) initSt).1.isBroken =
      true ∧
    (wfExecute (brkWorkflow reason oa ok1 pre post) initSt).1.breakReason =
      reason ∧
    (wfExecute (brkWorkflow reason oa ok1 pre post) initSt).1.trace =
      pre.map (fun p => "ok:" ++ p.1) ++ ["brk"] := by
  obtain ⟨m, hm⟩ := orDefaultOne_pos oa
  obtain ⟨m2, hm2⟩ := orDefaultOne_pos ok1
  have hbody : actionBodyFn (brkAction reason ok1)
      { okSt pre { initSt with currentAttempt := 1 } with
        currentActionName := "brk", actionAttempt := 1 } =
      ({ okSt pre { initSt with currentAttempt := 1 } with
         currentActionName := "brk", actionAttempt := 1,
         trace := (okSt pre { initSt with currentAttempt := 1 }).trace ++
           ["brk"],
         isBroken := true, breakReason := reason }, .error .breakSig) := rfl
  have hact : actionExecute (brkAction reason ok1)
      { okSt pre { initSt with currentAttempt := 1 } with
        currentActionName := "brk" } =
      ({ okSt pre { initSt with currentAttempt := 1 } with
         currentActionName := "brk", actionAttempt := 1,
         trace := (okSt pre { initSt with currentAttempt := 1 }).trace ++
           ["brk"],
         isBroken := true, breakReason := reason }, .error .breakSig) := by
    show M.tryCatch (actionRetryGo _ _ 1 (orDefaultOne ok1)) _ _ = _
    rw [hm2, M.tryCatch_error (actionRetryGo_first_breakSig hbody)]
    rfl
  have hseq : runActionsGo
      (brkAction reason ok1 :: post.map okAction)
      (okAcc pre WorkflowResult.empty)
      (okSt pre { initSt with currentAttempt := 1 }) =
      ({ okSt pre { initSt with currentAttempt := 1 } with
         currentActionName := "brk", actionAttempt := 1,
         trace := (okSt pre { initSt with currentAttempt := 1 }).trace ++
           ["brk"],
         isBroken := true, breakReason := reason }, .error .breakSig) := by
    show (ctxSetActionName "brk" >>= _) _ = _
    have h0 : ctxSetActionName "brk"
        (okSt pre { initSt with currentAttempt := 1 }) =
        ({ okSt pre { initSt with currentAttempt := 1 } with
           currentActionName := "brk" }, .ok ()) := rfl
    rw [M.bind_ok h0]
    exact M.bind_error hact
  have hfull : runActionsGo
      (pre.map okAction ++ brkAction reason ok1 :: post.map okAction)
      WorkflowResult.empty { initSt with currentAttempt := 1 } =
      ({ okSt pre { initSt with currentAttempt := 1 } with
         currentActionName := "brk", actionAttempt := 1,
         trace := (okSt pre { initSt with currentAttempt := 1 }).trace ++
           ["brk"],
         isBroken := true, breakReason := reason }, .error .breakSig) := by
    rw [runActionsGo_okActs]
    exact hseq
  have hfn : wfSequenceFn (brkWorkflow reason oa ok1 pre post)
      { initSt with currentAttempt := 1 } =
      ({ okSt pre { initSt with currentAttempt := 1 } with
         currentActionName := "brk", actionAttempt := 1,
         trace := (okSt pre { initSt with currentAttempt := 1 }).trace ++
           ["brk"],
         isBroken := true, breakReason := reason }, .error .breakSig) := by
    show (runActionsGo _ WorkflowResult.empty >>= _) _ = _
    exact M.bind_error hfull
  have hex : wfExecute (brkWorkflow reason oa ok1 pre post) initSt =
      wfExecuteCatch (brkWorkflow reason oa ok1 pre post) .breakSig
        ({ okSt pre { initSt with currentAttempt := 1 } with
           currentActionName := "brk", actionAttempt := 1,
           trace := (okSt pre { initSt with currentAttempt := 1 }).trace ++
             ["brk"],
           isBroken := true, breakReason := reason }) := by
    show M.tryCatch (wfRetryGo _ _ 1 (orDefaultOne oa)) _ initSt = _
    rw [hm]
    exact M.tryCatch_error (wfRetryGo_first_breakSig hfn)
  have hcatch : wfExecuteCatch (brkWorkflow reason oa ok1 pre post) .breakSig
        ({ okSt pre { initSt with currentAttempt := 1 } with
           currentActionName := "brk", actionAttempt := 1,
           trace := (okSt pre { initSt with currentAttempt := 1 }).trace ++
             ["brk"],
           isBroken := true, breakReason := reason }) =
      ({ okSt pre { initSt with currentAttempt := 1 } with
         currentActionName := "brk", actionAttempt := 1,
         trace := (okSt pre { initSt with currentAttempt := 1 }).trace ++
           ["brk"],
         isBroken := true, breakReason := reason },
       if reason.isError then .error (.err reason)
       else .error .breakSig) := by
    cases reason <;> rfl
  rw [hex, hcatch]
  refine ⟨rfl, rfl, rfl, ?_⟩
  show (okSt pre { initSt with currentAttempt := 1 }).trace ++ ["brk"] = _
  rw [okSt_trace]
  rfl

/-! ### Sequence-level re-runs (claim C2) -/

/-- A body that logs `"body<n>"` for the context attempt `n` it observes
and fails on sequence attempts 1 and 2, succeeding on attempt 3. -/
def c2Body : M Val := fun s =>
  if s.currentAttempt < 3 then
    ({ s with trace := s.trace ++ ["body" ++ toString s.currentAttempt] },
     .error (.err (.verr "boom")))
  else
    ({ s with trace := s.trace ++ ["body" ++ toString s.currentAttempt] },
     .ok (.vnat 7))

/-- Orchestrator `attempts = 3`, one step with the default per-step
attempt budget (1). -/
def c2Workflow : Workflow :=
  mkWorkflow (some 3) [mkAction "a" none c2Body none none none]
    none none none none

/-- Step `A` always succeeds, logging the sequence attempt it runs in. -/
def c2BodyA : M Val := fun s =>
  ({ s with trace := s.trace ++ ["A" ++ toString s.currentAttempt] },
   .ok (.vnat 1))

/-- Step `B` fails on sequence attempt 1 and succeeds afterwards. -/
def c2BodyB : M Val := fun s =>
  if s.currentAttempt = 1 then
    ({ s with trace := s.trace ++ ["B" ++ toString s.currentAttempt] },
     .error (.err (.verr "boom")))
  else
    ({ s with trace := s.trace ++ ["B" ++ toString s.currentAttempt] },
     .ok (.vnat 2))

/-- Orchestrator `attempts = 2` over the two steps `A`, `B`. -/
def c2Workflow2 : Workflow :=
  mkWorkflow (some 2)
    [mkAction "A" none c2BodyA none none none,
     mkAction "B" none c2BodyB none none none]
    none none none none

/-- C2: an unhandled (non-break) step failure makes the Orchestrator
re-run the whole sequence from the first registered step, up to its own
budget.  With `attempts = 3` and a single default-budget step that fails
twice then succeeds, the body runs exactly 3 times, once per
sequence-level iteration (the trace logs the sequence attempt each time),
and `execute()` resolves.  With two steps where `B` fails on the first
iteration, the re-run restarts from `A`: the trace is
`[A1, B1, A2, B2]`. -/
theorem c2_sequence_rerun_from_first_step :
    (wfExecute c2Workflow initSt).1.trace = ["body1", "body2", "body3"] ∧
    (wfExecute c2Workflow initSt).2 = .ok ⟨[("a", .vnat 7)], [.vnat 7]⟩ ∧
    (wfExecute c2Workflow2 initSt).1.trace = ["A1", "B1", "A2", "B2"] ∧
    (wfExecute c2Workflow2 initSt).2 =
      .ok ⟨[("A", .vnat 1), ("B", .vnat 2)], [.vnat 1, .vnat 2]⟩ := by
  refine ⟨?_, ?_, ?_, ?_⟩ <;>
    (simp [c2Workflow, c2Workflow2, c2Body, c2BodyA, c2BodyB, wfExecute,
      wfRetry, wfRetryGo, wfRetryHook, wfSequenceFn, runActionsGo, actionExecute,
      actionRetry, actionRetryGo, actionRetryHook, actionBodyFn, actionExecuteCatch,
      wfExecuteCatch, hookErrorToBreak, M.bind_eq, M.bind, M.pure,
      M.tryCatch, M.throw, ctxSetAttempt, ctxGetAttempt, ctxSetActionName,
      ctxAddResult, setActionAttempt, getActionAttempt, traceLog, wfBreak,
      getBreakReason, mkWorkflow, mkAction, orDefaultOne, initSt, setName,
      lookupName, WorkflowResult.addResult, WorkflowResult.empty] ;
     try decide)

/-! ### Nested breaks overwrite the recorded reason (claim C8) -/

/-- A step that breaks with `r1` while the sequence-level `onBreak` hook
breaks again with `r2` during unwinding. -/
def c8Workflow (r1 r2 : Val) : Workflow :=
  mkWorkflow (some 1) [mkAction "brk" none (wfBreak r1) none none none]
    none (some fun _ => wfBreak r2) none none

/-- C8: when `break` is called a second time while unwinding (here by the
sequence-level `onBreak` hook), the later call overwrites the recorded
reason: `getBreakReason()` afterwards returns `r2`, and the value
`execute()` rejects with is derived from `r2` — `r2` itself when it is an
`Error`, the generic `WorkflowBreakError` otherwise. -/
theorem c8_last_break_reason_wins (r1 r2 : Val) :
    (wfExecute (c8Workflow r1 r2) initSt).1.breakReason = r2 ∧
    (wfExecute (c8Workflow r1 r2) initSt).1.isBroken = true ∧
    (wfExecute (c8Workflow r1 r2) initSt).2 =
      (if r2.isError then .error (.err r2) else .error .breakSig) := by
  cases r2 <;> exact ⟨rfl, rfl, rfl⟩

/-! ### No wrapping or renaming of errors (claim C9) -/

/-- One hookless step whose body throws `Error("boom")`. -/
def c9Workflow : Workflow :=
  mkWorkflow (some 1)
    [mkAction "a" none (M.throw (.err (.verr "boom"))) none none none]
    none none none none

/-- A hookless step whose body always throws the value `v`. -/
def throwAction (oa : Option Nat) (v : Val) : WorkflowAction :=
  mkAction "a" oa (M.throw (.err v)) none none none

/-- C9: failures surface unwrapped.  With `attempts = 1` and one hookless
step throwing `Error("boom")`, `execute()` rejects with that very error
(message exactly `"boom"`).  In general, for any thrown value `v`, the
step layer (`WorkflowAction.execute`), an exhausted step-level retry loop
(`attempts = 2`) and an exhausted sequence-level retry loop
(`attempts = 2`) all re-raise exactly `v`. -/
theorem c9_no_error_wrapping :
    (wfExecute c9Workflow initSt).2 = .error (.err (.verr "boom")) ∧
    ∀ v : Val,
      (actionExecute (throwAction none v) initSt).2 = .error (.err v) ∧
      (actionExecute (throwAction (some 2) v) initSt).2 = .error (.err v) ∧
      (wfExecute (mkWorkflow (some 2) [throwAction (some 2) v]
        none none none none) initSt).2 = .error (.err v) := by
  refine ⟨?_, fun v => ⟨?_, ?_, ?_⟩⟩ <;>
    simp [c9Workflow, throwAction, wfExecute, wfRetry, wfRetryGo,
      wfSequenceFn, runActionsGo, actionExecute, actionRetry, actionRetryGo,
      actionRetryHook, wfRetryHook, actionBodyFn, actionExecuteCatch, wfExecuteCatch, hookErrorToBreak,
      M.bind_eq, M.bind, M.pure, M.tryCatch, M.throw, ctxSetAttempt,
      ctxGetAttempt, ctxSetActionName, ctxAddResult, setActionAttempt,
      getActionAttempt, traceLog, wfBreak, getBreakReason, mkWorkflow,
      mkAction, orDefaultOne, initSt, setName, lookupName,
      WorkflowResult.addResult, WorkflowResult.empty]

/-! ### Context persistence across sequence-level iterations (C4, C5) -/

/-- Step `A`: reads the context attempt, probes the context for `"mark"`
(logging `"fresh"` when unbound, `"sawOne"` when it still holds the value
written on the previous, failed iteration), then writes `"mark"` and
returns the attempt number. -/
def persistBodyA : M Val := do
  let a ← ctxGetAttempt
  let prev ← M.tryCatch (ctxGetResultByName "mark") fun _ => M.pure (.vnat 0)
  traceLog (if prev = .vnat 1 then "sawOne"
    else if prev = .vnat 0 then "fresh" else "sawOther")
  ctxAddResult "mark" (.vnat a)
  M.pure (.vnat a)

/-- Step `B`: reads `"mark"` (written by `A` earlier in the *same*
iteration), logs which value it saw, and fails on the first sequence
attempt. -/
def persistBodyB : M Val := do
  let a ← ctxGetAttempt
  let m ← ctxGetResultByName "mark"
  traceLog (if m = .vnat 1 then "Bread1"
    else if m = .vnat 2 then "Bread2" else "BreadOther")
  if a = 1 then M.throw (.err (.verr "boom")) else M.pure m

/-- Orchestrator `attempts = 2` over `A`, `B`: the first iteration fails
in `B`, the second succeeds. -/
def persistWorkflow : Workflow :=
  mkWorkflow (some 2)
    [mkAction "A" none persistBodyA none none none,
     mkAction "B" none persistBodyB none none none]
    none none none none

/-- Names bound in the context's `resultsByName` stay bound across the
computation (a later write may change the value, never unbind it). -/
def KeepsNames (m : M α) : Prop :=
  ∀ s k, (lookupName s.resultsByName k).isSome = true →
    (lookupName ((m s).1).resultsByName k).isSome = true

theorem keepsNames_pure (a : α) : KeepsNames (M.pure a) := fun _ _ h => h

theorem keepsNames_throw (e : Thrown) : KeepsNames (M.throw e : M α) :=
  fun _ _ h => h

theorem keepsNames_bind {x : M α} {f : α → M β} (hx : KeepsNames x)
    (hf : ∀ a, KeepsNames (f a)) : KeepsNames (x >>= f) := by
  intro s k h
  rw [M.bind_eq, M.bind]
  cases hxs : x s with
  | mk s' r =>
    have h' : (lookupName s'.resultsByName k).isSome = true := by
      have := hx s k h
      rw [hxs] at this
      exact this
    cases r with
    | ok a => exact hf a s' k h'
    | error e => exact h'

theorem keepsNames_tryCatch {x : M α} {h : Thrown → M α} (hx : KeepsNames x)
    (hh : ∀ e, KeepsNames (h e)) : KeepsNames (M.tryCatch x h) := by
  intro s k hk
  rw [M.tryCatch]
  cases hxs : x s with
  | mk s' r =>
    have h' : (lookupName s'.resultsByName k).isSome = true := by
      have := hx s k hk
      rw [hxs] at this
      exact this
    cases r with
    | ok a => exact h'
    | error e => exact hh e s' k h'

theorem keepsNames_wfBreak (v : Val) : KeepsNames (wfBreak v : M α) :=
  fun _ _ h => h

theorem keepsNames_getBreakReason : KeepsNames getBreakReason :=
  fun _ _ h => h

theorem keepsNames_ctxSetAttempt (n : Nat) : KeepsNames (ctxSetAttempt n) :=
  fun _ _ h => h

theorem keepsNames_hookErrorToBreak (e : Thrown) :
    KeepsNames (hookErrorToBreak e) := by
  cases e with
  | breakSig =>
    exact keepsNames_bind keepsNames_getBreakReason fun r =>
      keepsNames_wfBreak r
  | err v => exact keepsNames_wfBreak v

theorem keepsNames_ite {c : Prop} [Decidable c] {x y : M α}
    (hx : KeepsNames x) (hy : KeepsNames y) :
    KeepsNames (if c then x else y) := by
  by_cases hc : c
  · simpa [hc] using hx
  · simpa [hc] using hy

/-- The sequence-level retry loop of `WorkflowRetry` threads one context
through all its iterations and never unbinds an accumulated result, as
long as the iteration body and the caller-supplied `onRetry` hook do not. -/
theorem keepsNames_wfRetryGo {w : Workflow} {fn : M WorkflowResult}
    (hhook : ∀ h v, w.onRetry = some h → KeepsNames (h v))
    (hfn : KeepsNames fn) :
    ∀ attempt rem, KeepsNames (wfRetryGo w fn attempt rem) := by
  intro attempt rem
  induction rem generalizing attempt with
  | zero => exact keepsNames_throw _
  | succ r ih =>
    show KeepsNames (M.tryCatch _ _)
    refine keepsNames_tryCatch
      (keepsNames_bind (keepsNames_ctxSetAttempt attempt) fun _ => hfn) ?_
    intro e
    cases e with
    | breakSig => exact keepsNames_throw _
    | err v =>
      refine keepsNames_bind ?_ fun _ =>
        keepsNames_ite (keepsNames_throw _) (ih (attempt + 1))
      rw [wfRetryHook]
      cases hr : w.onRetry with
      | some h =>
        exact keepsNames_ite
          (keepsNames_tryCatch (hhook h v hr) keepsNames_hookErrorToBreak)
          (keepsNames_pure ())
      | none => exact keepsNames_pure ()

/-- C4: one `execute()` call has a single `WorkflowContext` that is never
reset between sequence-level retry iterations.  Generally: the retry loop
preserves every context binding as long as the iteration body and the
`onRetry` hook do (the engine itself never unbinds a name).  Concretely,
in `persistWorkflow`, `A`'s first-iteration write of `mark = 1` is still
readable (with that exact value) by `A` on the second iteration after `B`
failed (`"sawOne"`), `B` reads the value written earlier in the same
iteration on both iterations (`"Bread1"`, `"Bread2"`), the run resolves,
and `"mark"` stays bound in the final context. -/
theorem c4_context_never_reset :
    (∀ (w : Workflow) (fn : M WorkflowResult),
      (∀ h v, w.onRetry = some h → KeepsNames (h v)) → KeepsNames fn →
      ∀ attempt rem, KeepsNames (wfRetryGo w fn attempt rem)) ∧
    (wfExecute persistWorkflow initSt).1.trace =
      ["fresh", "Bread1", "sawOne", "Bread2"] ∧
    (wfExecute persistWorkflow initSt).1.resultsByName =
      [("mark", .vnat 2), ("A", .vnat 2), ("B", .vnat 2)] ∧
    lookupName [("mark", .vnat 2), ("A", .vnat 2), ("B", .vnat 2)] "mark" =
      some (.vnat 2) ∧
    (wfExecute persistWorkflow initSt).2 =
      .ok ⟨[("A", .vnat 2), ("B", .vnat 2)], [.vnat 2, .vnat 2]⟩ := by
  refine ⟨fun w fn hhook hfn => keepsNames_wfRetryGo hhook hfn,
    ?_, ?_, by decide, ?_⟩ <;>
    simp [persistWorkflow, persistBodyA, persistBodyB, wfExecute, wfRetry,
      wfRetryGo, wfRetryHook, wfSequenceFn, runActionsGo, actionExecute, actionRetry,
      actionRetryGo, actionRetryHook, actionBodyFn, actionExecuteCatch, wfExecuteCatch,
      hookErrorToBreak, M.bind_eq, M.bind, M.pure, M.tryCatch, M.throw,
      ctxSetAttempt, ctxGetAttempt, ctxSetActionName, ctxAddResult,
      ctxGetResultByName, setActionAttempt, getActionAttempt, traceLog,
      wfBreak, getBreakReason, mkWorkflow, mkAction, orDefaultOne, initSt,
      setName, lookupName, WorkflowResult.addResult, WorkflowResult.empty]

/-- Witness for C4 at a concrete instance: the hypotheses of the general
conjunct hold for `persistWorkflow` (no `onRetry` hook) and a trivial
iteration body. -/
theorem c4_context_never_reset_witness :
    KeepsNames (wfRetryGo persistWorkflow (M.pure WorkflowResult.empty) 1 2) ∧
    (wfExecute persistWorkflow initSt).1.trace =
      ["fresh", "Bread1", "sawOne", "Bread2"] :=
  ⟨c4_context_never_reset.1 persistWorkflow (M.pure WorkflowResult.empty)
      (fun _ _ hyp => Option.noConfusion hyp)
      (keepsNames_pure WorkflowResult.empty) 1 2,
    c4_context_never_reset.2.1⟩

/-- C5: a fresh, empty `WorkflowResult` is created on every sequence-level
iteration, so the value `execute()` resolves with holds exactly the
results of the iteration that finally succeeds ([2, 2] here), while the
shared context additionally kept everything the failed first iteration
accumulated (its by-index list is [1, 1, 2, 2, 2]: `mark = 1` and `A = 1`
from iteration 1, then `mark = 2`, `A = 2`, `B = 2`). -/
theorem c5_result_rebuilt_per_iteration :
    (wfExecute persistWorkflow initSt).2 =
      .ok ⟨[("A", .vnat 2), ("B", .vnat 2)], [.vnat 2, .vnat 2]⟩ ∧
    (wfExecute persistWorkflow initSt).1.resultsByIndex =
      [.vnat 1, .vnat 1, .vnat 2, .vnat 2, .vnat 2] ∧
    (wfExecute persistWorkflow initSt).1.resultsByName =
      [("mark", .vnat 2), ("A", .vnat 2), ("B", .vnat 2)] := by
  refine ⟨?_, ?_, ?_⟩ <;>
    simp [persistWorkflow, persistBodyA, persistBodyB, wfExecute, wfRetry,
      wfRetryGo, wfRetryHook, wfSequenceFn, runActionsGo, actionExecute, actionRetry,
      actionRetryGo, actionRetryHook, actionBodyFn, actionExecuteCatch, wfExecuteCatch,
      hookErrorToBreak, M.bind_eq, M.bind, M.pure, M.tryCatch, M.throw,
      ctxSetAttempt, ctxGetAttempt, ctxSetActionName, ctxAddResult,
      ctxGetResultByName, setActionAttempt, getActionAttempt, traceLog,
      wfBreak, getBreakReason, mkWorkflow, mkAction, orDefaultOne, initSt,
      setName, lookupName, WorkflowResult.addResult, WorkflowResult.empty]

/-! ### Hook failures (claim C3) -/

/-- An instrumented failing hook body: log `"h"`, then throw `v`. -/
def hookThrow (v : Val) : M Unit := do traceLog "h"; M.throw (.err v)

/-- Step-level `onRetry` raises (step budget 2, body always fails). -/
def c3w1 (v : Val) : Workflow :=
  mkWorkflow (some 1)
    [mkAction "a" (some 2) (do traceLog "b"; M.throw (.err (.verr "boom")))
      (some fun _ _ => hookThrow v) none none]
    none none none none

/-- Step-level `onSuccess` raises; a second step `"c"` would follow. -/
def c3w2 (v : Val) : Workflow :=
  mkWorkflow (some 1)
    [mkAction "a" none (do traceLog "b"; M.pure (.vnat 1)) none
      (some fun _ _ => hookThrow v) none,
     mkAction "c" none (do traceLog "c"; M.pure (.vnat 2)) none none none]
    none none none none

/-- Step-level `onFailed` raises. -/
def c3w3 (v : Val) : Workflow :=
  mkWorkflow (some 1)
    [mkAction "a" none (do traceLog "b"; M.throw (.err (.verr "boom")))
      none none (some fun _ _ => hookThrow v)]
    none none none none

/-- Sequence-level `onRetry` raises (sequence budget 2). -/
def c3w4 (v : Val) : Workflow :=
  mkWorkflow (some 2)
    [mkAction "a" none (do traceLog "b"; M.throw (.err (.verr "boom")))
      none none none]
    (some fun _ => hookThrow v) none none none

/-- Sequence-level `onSuccess` raises. -/
def c3w5 (v : Val) : Workflow :=
  mkWorkflow (some 1)
    [mkAction "a" none (do traceLog "b"; M.pure (.vnat 1)) none none none]
    none none (some (hookThrow v)) none

/-- Sequence-level `onFailed` raises. -/
def c3w6 (v : Val) : Workflow :=
  mkWorkflow (some 1)
    [mkAction "a" none (do traceLog "b"; M.throw (.err (.verr "boom")))
      none none none]
    none none none (some fun _ => hookThrow v)

/-- Sequence-level `onBreak` raises after the step broke with `"r1"`. -/
def c3w7 (v : Val) : Workflow :=
  mkWorkflow (some 1)
    [mkAction "a" none (do traceLog "b"; wfBreak (.vstr "r1")) none none none]
    none (some fun _ => hookThrow v) none none

/-- C3 counterexample: a sequence-level `onFailed` hook that raises a
plain `Error("hookfail")` is what `execute()` rejects with, yet
`wasBroken()` stays `false` and no break reason is recorded — the hook's
failure was *not* converted into a break, refuting the claim for this
hook. -/
theorem c3_counterexample_onFailed_no_break :
    (wfExecute (c3w6 (.verr "hookfail")) initSt).2 =
      .error (.err (.verr "hookfail")) ∧
    (wfExecute (c3w6 (.verr "hookfail")) initSt).1.isBroken = false ∧
    (wfExecute (c3w6 (.verr "hookfail")) initSt).1.breakReason = .undef := by
  refine ⟨?_, ?_, ?_⟩ <;>
    simp [c3w6, hookThrow, wfExecute, wfRetry, wfRetryGo, wfRetryHook,
      wfSequenceFn, runActionsGo, actionExecute, actionRetry, actionRetryGo,
      actionRetryHook, actionBodyFn, actionExecuteCatch, wfExecuteCatch,
      hookErrorToBreak, M.bind_eq, M.bind, M.pure, M.tryCatch, M.throw,
      ctxSetAttempt, ctxGetAttempt, ctxSetActionName, ctxAddResult,
      setActionAttempt, getActionAttempt, traceLog, wfBreak, getBreakReason,
      mkWorkflow, mkAction, orDefaultOne, initSt, setName, lookupName,
      WorkflowResult.addResult, WorkflowResult.empty]

set_option maxHeartbeats 1600000 in
/-- C3 amended: a failing hook is never retried and always halts normal
execution, and for the step-level hooks (`onRetry`, `onSuccess`,
`onFailed`) and the sequence-level `onRetry` and `onSuccess` it is
converted into a break: the broken flag is set, the thrown value becomes
the recorded break reason, and `execute()` rejects with that value when it
is an `Error`, else with the generic interruption error.  The
sequence-level `onBreak` and `onFailed` hooks, however, run during
unwinding: a plain error they raise is re-raised as-is without updating
the break state (the flag and the recorded reason keep whatever values the
unwind already gave them).  In every scenario the ghost trace `["b", "h"]`
shows one body run, one hook run, and nothing after. -/
theorem c3_amended_hook_failure_policy (v : Val) :
    ((wfExecute (c3w1 v) initSt).2 =
        (if v.isError then .error (.err v) else .error .breakSig) ∧
      (wfExecute (c3w1 v) initSt).1.isBroken = true ∧
      (wfExecute (c3w1 v) initSt).1.breakReason = v ∧
      (wfExecute (c3w1 v) initSt).1.trace = ["b", "h"]) ∧
    ((wfExecute (c3w2 v) initSt).2 =
        (if v.isError then .error (.err v) else .error .breakSig) ∧
      (wfExecute (c3w2 v) initSt).1.isBroken = true ∧
      (wfExecute (c3w2 v) initSt).1.breakReason = v ∧
      (wfExecute (c3w2 v) initSt).1.trace = ["b", "h"]) ∧
    ((wfExecute (c3w3 v) initSt).2 =
        (if v.isError then .error (.err v) else .error .breakSig) ∧
      (wfExecute (c3w3 v) initSt).1.isBroken = true ∧
      (wfExecute (c3w3 v) initSt).1.breakReason = v ∧
      (wfExecute (c3w3 v) initSt).1.trace = ["b", "h"]) ∧
    ((wfExecute (c3w4 v) initSt).2 =
        (if v.isError then .error (.err v) else .error .breakSig) ∧
      (wfExecute (c3w4 v) initSt).1.isBroken = true ∧
      (wfExecute (c3w4 v) initSt).1.breakReason = v ∧
      (wfExecute (c3w4 v) initSt).1.trace = ["b", "h"]) ∧
    ((wfExecute (c3w5 v) initSt).2 =
        (if v.isError then .error (.err v) else .error .breakSig) ∧
      (wfExecute (c3w5 v) initSt).1.isBroken = true ∧
      (wfExecute (c3w5 v) initSt).1.breakReason = v ∧
      (wfExecute (c3w5 v) initSt).1.trace = ["b", "h"]) ∧
    ((wfExecute (c3w6 v) initSt).2 = .error (.err v) ∧
      (wfExecute (c3w6 v) initSt).1.isBroken = false ∧
      (wfExecute (c3w6 v) initSt).1.breakReason = .undef ∧
      (wfExecute (c3w6 v) initSt).1.trace = ["b", "h"]) ∧
    ((wfExecute (c3w7 v) initSt).2 = .error (.err v) ∧
      (wfExecute (c3w7 v) initSt).1.isBroken = true ∧
      (wfExecute (c3w7 v) initSt).1.breakReason = .vstr "r1" ∧
      (wfExecute (c3w7 v) initSt).1.trace = ["b", "h"]) := by
  cases v <;>
    refine ⟨⟨?_, ?_, ?_, ?_⟩, ⟨?_, ?_, ?_, ?_⟩, ⟨?_, ?_, ?_, ?_⟩,
      ⟨?_, ?_, ?_, ?_⟩, ⟨?_, ?_, ?_, ?_⟩, ⟨?_, ?_, ?_, ?_⟩,
      ⟨?_, ?_, ?_, ?_⟩⟩ <;>
    simp [c3w1, c3w2, c3w3, c3w4, c3w5, c3w6, c3w7, hookThrow, Val.isError,
      wfExecute, wfRetry, wfRetryGo, wfRetryHook, wfSequenceFn, runActionsGo,
      actionExecute, actionRetry, actionRetryGo, actionRetryHook,
      actionBodyFn, actionExecuteCatch, wfExecuteCatch, hookErrorToBreak,
      M.bind_eq, M.bind, M.pure, M.tryCatch, M.throw, ctxSetAttempt,
      ctxGetAttempt, ctxSetActionName, ctxAddResult, setActionAttempt,
      getActionAttempt, traceLog, wfBreak, getBreakReason, mkWorkflow,
      mkAction, orDefaultOne, initSt, setName, lookupName,
      WorkflowResult.addResult, WorkflowResult.empty]

/-! ### Step-level retry counts and attempt numbering (claim C6) -/

/-- A probe body: logs `"b"` plus which context attempt it observes
(`"ctx1"`, `"ctx2"`, or `"ctxO"`), failing on its first invocation and
succeeding on the second. -/
def c6ProbeBody : M Val := fun s =>
  if s.trace = [] then
    ({ s with trace := s.trace ++
        ["b", (if s.currentAttempt = 1 then "ctx1"
               else if s.currentAttempt = 2 then "ctx2" else "ctxO")] },
     .error (.err (.verr "boom")))
  else
    ({ s with trace := s.trace ++
        ["b", (if s.currentAttempt = 1 then "ctx1"
               else if s.currentAttempt = 2 then "ctx2" else "ctxO")] },
     .ok (.vnat 2))

/-- One step with `attempts = 2` inside a one-shot workflow. -/
def c6Probe : Workflow :=
  mkWorkflow (some 1) [mkAction "a" (some 2) c6ProbeBody none none none]
    none none none none

/-- C6 counterexample: for `k = 2` the claim predicts the two body
invocations observe context attempt numbers 1 then 2 (trace
`["b","ctx1","b","ctx2"]`).  In fact `WorkflowAction.retry` only writes
the step's own `currentAttempt` field and never the context's, so both
invocations observe the sequence-level attempt 1: the run succeeds with
trace `["b","ctx1","b","ctx1"]`, which differs from the predicted one. -/
theorem c6_counterexample_context_attempt_not_stepped :
    (wfExecute c6Probe initSt).2 = .ok ⟨[("a", .vnat 2)], [.vnat 2]⟩ ∧
    (wfExecute c6Probe initSt).1.trace = ["b", "ctx1", "b", "ctx1"] ∧
    ¬ (wfExecute c6Probe initSt).1.trace = ["b", "ctx1", "b", "ctx2"] := by
  refine ⟨?_, ?_, ?_⟩ <;>
    simp [c6Probe, c6ProbeBody, wfExecute, wfRetry, wfRetryGo, wfRetryHook,
      wfSequenceFn, runActionsGo, actionExecute, actionRetry, actionRetryGo,
      actionRetryHook, actionBodyFn, actionExecuteCatch, wfExecuteCatch,
      hookErrorToBreak, M.bind_eq, M.bind, M.pure, M.tryCatch, M.throw,
      ctxSetAttempt, ctxGetAttempt, ctxSetActionName, ctxAddResult,
      setActionAttempt, getActionAttempt, traceLog, wfBreak, getBreakReason,
      mkWorkflow, mkAction, orDefaultOne, initSt, setName, lookupName,
      WorkflowResult.addResult, WorkflowResult.empty]

/-- A body for a step with budget `k`: it logs `"b"` on every invocation,
fails while fewer than `k` invocations have happened, and returns the
ordinal of the succeeding invocation. -/
def c6Body (k : Nat) : M Val := fun s =>
  if s.trace.count "b" + 1 < k then
    ({ s with trace := s.trace ++ ["b"] }, .error (.err (.verr "boom")))
  else
    ({ s with trace := s.trace ++ ["b"] }, .ok (.vnat (s.trace.count "b" + 1)))

/-- An `onRetry` hook that logs `"r"` when its attempt argument equals the
number of body invocations so far (the expected attempt number) and
`"rBAD"` otherwise. -/
def c6Hook : Nat → Val → M Unit := fun att _ => fun s =>
  if att = s.trace.count "b" then
    ({ s with trace := s.trace ++ ["r"] }, .ok ())
  else ({ s with trace := s.trace ++ ["rBAD"] }, .ok ())

def c6Action (k : Nat) : WorkflowAction :=
  mkAction "a" (some k) (c6Body k) (some c6Hook) none none

/-- The expected ghost trace of `c6Action k` run to success: `f` body
invocations interleaved with correctly numbered retries. -/
def c6Trace : Nat → List String
  | 0 => []
  | f + 1 => "b" :: (if f = 0 then [] else "r" :: c6Trace f)

theorem orDefaultOne_some {k : Nat} (hk : 1 ≤ k) :
    orDefaultOne (some k) = k := by
  cases k with
  | zero => omega
  | succ n => rfl

theorem actionRetryHook_some {a : WorkflowAction}
    {h : Nat → Val → M Unit} (hh : a.onRetry = some h)
    (attempt : Nat) (v : Val) :
    actionRetryHook a attempt v =
      if attempt < a.attempts then
        M.tryCatch (do let ca ← getActionAttempt; h ca v) hookErrorToBreak
      else M.pure () := by
  rw [actionRetryHook, hh]

theorem c6_loop (k : Nat) (hk : 1 ≤ k) :
    ∀ rem attempt (s : WfSt), attempt + rem = k → 1 ≤ attempt →
      s.trace.count "b" = attempt - 1 →
      actionRetryGo (c6Action k) (actionBodyFn (c6Action k)) attempt
        (rem + 1) s =
      ({ s with actionAttempt := k, trace := s.trace ++ c6Trace (rem + 1) },
       .ok (.vnat k)) := by
  intro rem
  induction rem with
  | zero =>
    intro attempt s hsum h1 hcount
    rw [show attempt = k from by omega] at hcount ⊢
    have hbody : c6Body k { s with actionAttempt := k } =
        ({ s with actionAttempt := k, trace := s.trace ++ ["b"] },
         .ok (.vnat k)) := by
      simp only [c6Body]
      rw [hcount]
      have hc : k - 1 + 1 = k := by omega
      rw [hc, if_neg (Nat.lt_irrefl k)]
    have hfn : actionBodyFn (c6Action k) { s with actionAttempt := k } =
        ({ s with actionAttempt := k, trace := s.trace ++ ["b"] },
         .ok (.vnat k)) := by
      show ((c6Action k).action >>= _) _ = _
      rw [show (c6Action k).action = c6Body k from rfl, M.bind_ok hbody]
      rfl
    exact actionRetryGo_first_ok hfn
  | succ r ih =>
    intro attempt s hsum h1 hcount
    have hlt : attempt < k := by omega
    have hbody : c6Body k { s with actionAttempt := attempt } =
        ({ s with actionAttempt := attempt, trace := s.trace ++ ["b"] },
         .error (.err (.verr "boom"))) := by
      simp only [c6Body]
      rw [hcount]
      have hc : attempt - 1 + 1 = attempt := by omega
      rw [hc, if_pos hlt]
    have hfn : actionBodyFn (c6Action k) { s with actionAttempt := attempt } =
        ({ s with actionAttempt := attempt, trace := s.trace ++ ["b"] },
         .error (.err (.verr "boom"))) := by
      show ((c6Action k).action >>= _) _ = _
      rw [show (c6Action k).action = c6Body k from rfl, M.bind_error hbody]
    have hcount2 : (s.trace ++ ["b"]).count "b" = attempt := by
      rw [List.count_append, hcount,
        show List.count "b" ["b"] = 1 from by decide]
      omega
    have hhook : actionRetryHook (c6Action k) attempt (.verr "boom")
        { s with actionAttempt := attempt, trace := s.trace ++ ["b"] } =
        ({ s with actionAttempt := attempt,
                  trace := (s.trace ++ ["b"]) ++ ["r"] }, .ok ()) := by
      rw [actionRetryHook_some
          (show (c6Action k).onRetry = some c6Hook from rfl) attempt,
        show (c6Action k).attempts = k from orDefaultOne_some hk,
        if_pos hlt]
      have hget : getActionAttempt
          { s with actionAttempt := attempt, trace := s.trace ++ ["b"] } =
          ({ s with actionAttempt := attempt, trace := s.trace ++ ["b"] },
           .ok attempt) := rfl
      have hhk : c6Hook attempt (.verr "boom")
          { s with actionAttempt := attempt, trace := s.trace ++ ["b"] } =
          ({ s with actionAttempt := attempt,
                    trace := (s.trace ++ ["b"]) ++ ["r"] }, .ok ()) := by
        simp only [c6Hook]
        rw [hcount2, if_pos rfl]
      exact M.tryCatch_ok (by rw [M.bind_ok hget]; exact hhk)
    have hrec := ih (attempt + 1)
      { s with actionAttempt := attempt,
               trace := (s.trace ++ ["b"]) ++ ["r"] }
      (by omega) (by omega)
      (by show ((s.trace ++ ["b"]) ++ ["r"]).count "b" = attempt + 1 - 1
          rw [List.count_append, hcount2,
            show List.count "b" ["r"] = 0 from by decide]
          omega)
    show M.tryCatch _ _ s = _
    rw [M.tryCatch_error (by
      have h0 : setActionAttempt attempt s =
          ({ s with actionAttempt := attempt }, .ok ()) := rfl
      rw [M.bind_ok h0]; exact hfn)]
    show (actionRetryHook (c6Action k) attempt (.verr "boom") >>= _) _ = _
    rw [M.bind_ok hhook]
    have hne : ¬ attempt = (c6Action k).attempts := by
      rw [show (c6Action k).attempts = k from orDefaultOne_some hk]
      omega
    rw [if_neg hne]
    rw [hrec]
    have htr : ((s.trace ++ ["b"]) ++ ["r"]) ++ c6Trace (r + 1) =
        s.trace ++ c6Trace (r + 1 + 1) := by
      rw [show c6Trace (r + 1 + 1) =
        "b" :: "r" :: c6Trace (r + 1) from by
          rw [c6Trace]
          rw [if_neg (Nat.succ_ne_zero r)]]
      simp
    rw [htr]

theorem c6Trace_count_b : ∀ f, (c6Trace (f + 1)).count "b" = f + 1 := by
  intro f
  induction f with
  | zero => decide
  | succ g ih =>
    rw [c6Trace, if_neg (Nat.succ_ne_zero g)]
    simp [List.count_cons, ih]

theorem c6Trace_count_r : ∀ f, (c6Trace (f + 1)).count "r" = f := by
  intro f
  induction f with
  | zero => decide
  | succ g ih =>
    rw [c6Trace, if_neg (Nat.succ_ne_zero g)]
    simp [List.count_cons, ih]

theorem c6Trace_count_rBAD : ∀ f, (c6Trace (f + 1)).count "rBAD" = 0 := by
  intro f
  induction f with
  | zero => decide
  | succ g ih =>
    rw [c6Trace, if_neg (Nat.succ_ne_zero g)]
    simp [List.count_cons, ih]

/-- C6 amended: a step with `attempts = k ≥ 1` whose body fails on its
first `k - 1` invocations and succeeds on the `k`-th has its body invoked
exactly `k` times by one `execute(context)` call (`count "b" = k`) and its
`onRetry` hook invoked exactly `k - 1` times (`count "r" = k - 1`), each
time with the attempt number of the invocation that just failed (the hook
logs `"rBAD"` on a wrong attempt argument, and none occurs); the call
returns the attempt-`k` result.  The attempt numbers the hooks see are the
step's own counter: the *context* attempt number is never written by the
step layer and stays at its sequence-level value `c` throughout. -/
theorem c6_amended_step_retry_counts (k' c : Nat) :
    (actionExecute (c6Action (k' + 1))
        { initSt with currentAttempt := c }).2 = .ok (.vnat (k' + 1)) ∧
    (actionExecute (c6Action (k' + 1))
        { initSt with currentAttempt := c }).1.trace = c6Trace (k' + 1) ∧
    (c6Trace (k' + 1)).count "b" = k' + 1 ∧
    (c6Trace (k' + 1)).count "r" = k' ∧
    (c6Trace (k' + 1)).count "rBAD" = 0 ∧
    (actionExecute (c6Action (k' + 1))
        { initSt with currentAttempt := c }).1.currentAttempt = c := by
  have hrun := c6_loop (k' + 1) (by omega) k' 1
    { initSt with currentAttempt := c } (by omega) (by omega) (by rfl)
  have hex : actionExecute (c6Action (k' + 1))
      { initSt with currentAttempt := c } =
      ({ initSt with currentAttempt := c, actionAttempt := k' + 1,
                     trace := c6Trace (k' + 1) }, .ok (.vnat (k' + 1))) := by
    show M.tryCatch (actionRetryGo _ _ 1 (orDefaultOne (some (k' + 1)))) _ _
      = _
    rw [show orDefaultOne (some (k' + 1)) = k' + 1 from rfl]
    exact M.tryCatch_ok hrun
  rw [hex]
  exact ⟨rfl, rfl, c6Trace_count_b k', c6Trace_count_r k',
    c6Trace_count_rBAD k', rfl⟩

/-! ### The post-loop synthetic errors are unreachable (claim C10) -/

/-- The synthetic `Error` thrown after `WorkflowAction.retry`'s loop. -/
def actionFailVal (a : WorkflowAction) : Val :=
  .verr ("Failed to execute action " ++ a.name ++ " after " ++
    toString a.attempts ++ " attempts")

/-- The synthetic `Error` thrown after `WorkflowRetry.retry`'s loop. -/
def wfFailVal (w : Workflow) : Val :=
  .verr ("Failed to execute workflow after " ++ toString w.attempts ++
    " attempts")

/-- A hook invocation wrapped in the break-conversion catch either
succeeds or throws a `WorkflowBreakError` — never any other error. -/
theorem tryCatch_hookErrorToBreak_outcome (x : M Unit) (s : WfSt) :
    ((M.tryCatch x hookErrorToBreak) s).2 = .ok () ∨
    ((M.tryCatch x hookErrorToBreak) s).2 = .error .breakSig := by
  rw [M.tryCatch]
  cases hx : x s with
  | mk s' r =>
    cases r with
    | ok a => left; rfl
    | error e =>
      cases e with
      | breakSig => right; rfl
      | err v => right; rfl

theorem actionRetryHook_outcome (a : WorkflowAction) (attempt : Nat)
    (v : Val) (s : WfSt) :
    ((actionRetryHook a attempt v) s).2 = .ok () ∨
    ((actionRetryHook a attempt v) s).2 = .error .breakSig := by
  cases hr : a.onRetry with
  | none => left; rw [actionRetryHook, hr]; rfl
  | some h =>
    rw [actionRetryHook_some hr]
    by_cases hc : attempt < a.attempts
    · rw [if_pos hc]
      exact tryCatch_hookErrorToBreak_outcome _ s
    · rw [if_neg hc]
      left; rfl

theorem wfRetryHook_outcome (w : Workflow) (attempt : Nat) (v : Val)
    (s : WfSt) :
    ((wfRetryHook w attempt v) s).2 = .ok () ∨
    ((wfRetryHook w attempt v) s).2 = .error .breakSig := by
  cases hr : w.onRetry with
  | none => left; rw [wfRetryHook, hr]; rfl
  | some h =>
    rw [show wfRetryHook w attempt v =
      (if attempt < w.attempts then M.tryCatch (h v) hookErrorToBreak
       else M.pure ()) from by rw [wfRetryHook, hr]]
    by_cases hc : attempt < w.attempts
    · rw [if_pos hc]
      exact tryCatch_hookErrorToBreak_outcome _ s
    · rw [if_neg hc]
      left; rfl

theorem actionRetryGo_no_fallthrough (a : WorkflowAction) (fn : M Val)
    (hfn : ∀ s2, (fn s2).2 ≠ .error (.err (actionFailVal a))) :
    ∀ rem attempt (s : WfSt), attempt + rem = a.attempts + 1 → 1 ≤ rem →
      (actionRetryGo a fn attempt rem s).2 ≠
        .error (.err (actionFailVal a)) := by
  intro rem
  induction rem with
  | zero => intro attempt s _ h2; omega
  | succ r ih =>
    intro attempt s hsum _
    show ((M.tryCatch _ _) s).2 ≠ _
    rw [M.tryCatch]
    have hx : (do setActionAttempt attempt; fn) s =
        fn { s with actionAttempt := attempt } := M.bind_ok rfl
    rw [hx]
    cases hres : fn { s with actionAttempt := attempt } with
    | mk s2 r2 =>
      cases r2 with
      | ok v => exact fun h => Except.noConfusion h
      | error e =>
        cases e with
        | breakSig => exact fun h => Thrown.noConfusion (Except.error.inj h)
        | err v =>
          show (((actionRetryHook a attempt v) >>= _) s2).2 ≠ _
          rw [M.bind_eq, M.bind]
          cases hhk : actionRetryHook a attempt v s2 with
          | mk s3 hr =>
            rcases actionRetryHook_outcome a attempt v s2 with hout | hout <;>
              rw [hhk] at hout
            · have he : hr = Except.ok () := hout
              subst he
              show ((if attempt = a.attempts then M.throw (.err v)
                else actionRetryGo a fn (attempt + 1) r) s3).2 ≠ _
              by_cases heq : attempt = a.attempts
              · rw [if_pos heq]
                intro hcontra
                have hv : v = actionFailVal a := by
                  have h2 := Except.error.inj hcontra
                  exact Thrown.err.inj h2
                apply hfn { s with actionAttempt := attempt }
                rw [hres, hv]
              · rw [if_neg heq]
                exact ih (attempt + 1) s3 (by omega) (by omega)
            · have he : hr = Except.error .breakSig := hout
              subst he
              exact fun h => Thrown.noConfusion (Except.error.inj h)

theorem wfRetryGo_no_fallthrough (w : Workflow) (fn : M WorkflowResult)
    (hfn : ∀ s2, (fn s2).2 ≠ .error (.err (wfFailVal w))) :
    ∀ rem attempt (s : WfSt), attempt + rem = w.attempts + 1 → 1 ≤ rem →
      (wfRetryGo w fn attempt rem s).2 ≠ .error (.err (wfFailVal w)) := by
  intro rem
  induction rem with
  | zero => intro attempt s _ h2; omega
  | succ r ih =>
    intro attempt s hsum _
    show ((M.tryCatch _ _) s).2 ≠ _
    rw [M.tryCatch]
    have hx : (do ctxSetAttempt attempt; fn) s =
        fn { s with currentAttempt := attempt } := M.bind_ok rfl
    rw [hx]
    cases hres : fn { s with currentAttempt := attempt } with
    | mk s2 r2 =>
      cases r2 with
      | ok v => exact fun h => Except.noConfusion h
      | error e =>
        cases e with
        | breakSig => exact fun h => Thrown.noConfusion (Except.error.inj h)
        | err v =>
          show (((wfRetryHook w attempt v) >>= _) s2).2 ≠ _
          rw [M.bind_eq, M.bind]
          cases hhk : wfRetryHook w attempt v s2 with
          | mk s3 hr =>
            rcases wfRetryHook_outcome w attempt v s2 with hout | hout <;>
              rw [hhk] at hout
            · have he : hr = Except.ok () := hout
              subst he
              show ((if attempt = w.attempts then M.throw (.err v)
                else wfRetryGo w fn (attempt + 1) r) s3).2 ≠ _
              by_cases heq : attempt = w.attempts
              · rw [if_pos heq]
                intro hcontra
                have hv : v = wfFailVal w := by
                  have h2 := Except.error.inj hcontra
                  exact Thrown.err.inj h2
                apply hfn { s with currentAttempt := attempt }
                rw [hres, hv]
              · rw [if_neg heq]
                exact ih (attempt + 1) s3 (by omega) (by omega)
            · have he : hr = Except.error .breakSig := hout
              subst he
              exact fun h => Thrown.noConfusion (Except.error.inj h)

/-- C10: under `attempts ≥ 1` (which the constructors enforce by
defaulting falsy values to 1), the synthetic
`Failed to execute ... after N attempts` error thrown after each retry
loop is unreachable: as long as the looped function does not itself throw
a value equal to the synthetic error, the result of
`WorkflowAction.retry` / `WorkflowRetry.retry` is never that error — every
termination is a normal return, a re-raise of a body error, a hook-derived
break, or a `WorkflowBreakError` from inside the loop. -/
theorem c10_post_loop_throw_unreachable :
    (∀ (a : WorkflowAction) (fn : M Val) (s : WfSt),
      1 ≤ a.attempts →
      (∀ s2, (fn s2).2 ≠ .error (.err (actionFailVal a))) →
      (actionRetry a fn s).2 ≠ .error (.err (actionFailVal a))) ∧
    (∀ (w : Workflow) (fn : M WorkflowResult) (s : WfSt),
      1 ≤ w.attempts →
      (∀ s2, (fn s2).2 ≠ .error (.err (wfFailVal w))) →
      (wfRetry w fn s).2 ≠ .error (.err (wfFailVal w))) := by
  constructor
  · intro a fn s h1 hfn
    exact actionRetryGo_no_fallthrough a fn hfn a.attempts 1 s (by omega)
      (by omega)
  · intro w fn s h1 hfn
    exact wfRetryGo_no_fallthrough w fn hfn w.attempts 1 s (by omega)
      (by omega)

/-- Witness for C10 at a concrete instance: a one-attempt action and a
one-attempt workflow whose bodies succeed. -/
theorem c10_post_loop_throw_unreachable_witness :
    (actionRetry (mkAction "a" (some 1) (M.pure (.vnat 0)) none none none)
        (M.pure (.vnat 0)) initSt).2 ≠
      .error (.err (actionFailVal
        (mkAction "a" (some 1) (M.pure (.vnat 0)) none none none))) ∧
    (wfRetry (mkWorkflow (some 1) [] none none none none)
        (M.pure WorkflowResult.empty) initSt).2 ≠
      .error (.err (wfFailVal (mkWorkflow (some 1) [] none none none none))) :=
  ⟨c10_post_loop_throw_unreachable.1
      (mkAction "a" (some 1) (M.pure (.vnat 0)) none none none)
      (M.pure (.vnat 0)) initSt (by decide)
      (fun s2 h => Except.noConfusion h),
    c10_post_loop_throw_unreachable.2
      (mkWorkflow (some 1) [] none none none none)
      (M.pure WorkflowResult.empty) initSt (by decide)
      (fun s2 h => Except.noConfusion h)⟩

end WRetry
